import Mathlib

/-!
Verification of the polling application's vote-submission and tally core.

This file gives a shallow embedding, in Lean 4, of the vote-submission and
tally-consistency core of the polling web application:

* the datastore tables `polls` and `poll_options` (schema in `SETUP.md`:
  `polls(id, title, description, created_by, ...)`,
  `poll_options(id, poll_id, text, votes INTEGER DEFAULT 0, ...)`,
  with `ON DELETE CASCADE` from options to their poll);
* the server actions `createPoll`, `submitVote`, `deletePoll`, `updatePoll`
  from `src/lib/actions.ts`;
* the reader `getPollDetails` and the wrapper `handleVote` from
  `src/app/polls/[id]/page.tsx`, and `calculatePercentage` from
  `src/components/polls/poll-voting-form.tsx`.

Modelling conventions:

* A datastore state is a `DB`: a list of poll rows and a list of option rows,
  in insertion order.  Row identifiers are strings (UUIDs in the datastore);
  generated identifiers are passed in as parameters.
* `votes` is an `Int` (the column is SQL `INTEGER`, read into a JS number).
* Supabase query semantics as they appear in the source:
  `.select(...).eq(...).eq(...).single()` succeeds exactly when precisely one
  row matches the filters; `.update(...).eq(...).eq(...)` updates every
  matching row and reports an error only on a datastore-level failure — an
  update matching zero rows is *not* an error, and the source never inspects
  the number of affected rows.
* Fallible actions return `Except String` carrying the exact message thrown
  by the source.  The spec's error taxonomy maps onto those messages:
  `ValidationError` ↦ "Poll ID and option ID are required" (from `handleVote`),
  `NotFoundError` ↦ "Failed to fetch current vote count",
  `WriteError` ↦ "Failed to submit vote".
* `submitVote`'s two datastore round trips (read, then write) are exposed as
  `submitVoteTwoPhase dbRead dbWrite`, the read running against `dbRead` and
  the write against `dbWrite`; the sequential call is the diagonal
  `submitVote db = submitVoteTwoPhase db db`.  Interleavings of concurrent
  calls are expressed by choosing different states for the two phases.
* Exogenous datastore failures (network errors and the like) are modelled as
  explicit boolean inputs where a claim depends on them (`getPollDetails`).
* JS double-precision arithmetic in the percentage computation is modelled
  exactly over dyadic rationals (see the section on `jsPercent`): each
  operation rounds its exact result to the nearest IEEE-754 binary64 value
  (round-to-nearest, ties-to-even, 53-bit significand; the values arising
  here are far from overflow and underflow), and `Math.round` is
  round-half-up on the exact value of its double argument.
-/

/-- A row of the `poll_options` table: `id, poll_id, text, votes`. -/
structure OptionRow where
  id : String
  pollId : String
  text : String
  votes : Int
  deriving Repr, DecidableEq

/-- A row of the `polls` table: `id, title, description, created_by`.
`description` is a nullable column, hence `Option String`. -/
structure PollRow where
  id : String
  title : String
  description : Option String
  createdBy : String
  deriving Repr, DecidableEq

/-- A datastore state: the two tables, rows in insertion order. -/
structure DB where
  polls : List PollRow
  pollOptions : List OptionRow
  deriving Repr, DecidableEq

/-- The compound filter `.eq('id', optionId).eq('poll_id', pollId)` used by
both the read and the write of `submitVote`. -/
def optionMatches (pollId optionId : String) (r : OptionRow) : Bool :=
  r.id == optionId && r.pollId == pollId

/-- The read step of `submitVote` (`actions.ts` lines 218–223):
`select('votes').eq('id', optionId).eq('poll_id', pollId).single()`.
`.single()` succeeds exactly when precisely one row matches. -/
def fetchVotes (db : DB) (pollId optionId : String) : Option Int :=
  match db.pollOptions.filter (optionMatches pollId optionId) with
  | [r] => some r.votes
  | _ => none

/-- The write step of `submitVote` (`actions.ts` lines 234–238):
`update({votes: newVotes}).eq('id', optionId).eq('poll_id', pollId)`.
Returns the new state together with the number of rows affected (which the
source discards). -/
def updateVotes (db : DB) (pollId optionId : String) (newVotes : Int) :
    DB × Nat :=
  ({ db with
      pollOptions := db.pollOptions.map fun r =>
        if optionMatches pollId optionId r then { r with votes := newVotes }
        else r },
   (db.pollOptions.filter (optionMatches pollId optionId)).length)

/-- `submitVote` (`actions.ts` lines 209–257) with its two datastore round
trips made explicit: the read runs against `dbRead`, the write against
`dbWrite`.  On a failed read the action throws
"Failed to fetch current vote count"; otherwise it issues the write and — the
source checks only the datastore error flag, never the number of affected
rows — reports success. -/
def submitVoteTwoPhase (dbRead dbWrite : DB) (pollId optionId : String) :
    DB × Except String Unit :=
  match fetchVotes dbRead pollId optionId with
  | none => (dbWrite, Except.error "Failed to fetch current vote count")
  | some currentVotes =>
      ((updateVotes dbWrite pollId optionId (currentVotes + 1)).1,
       Except.ok ())

/-- A `submitVote` call running without interference: both phases see the
same state. -/
def submitVote (db : DB) (pollId optionId : String) : DB × Except String Unit :=
  submitVoteTwoPhase db db pollId optionId

/-- One datastore round trip, for recording which accesses an action issues. -/
inductive Access where
  | read (pollId optionId : String)
  | write (pollId optionId : String)
  deriving Repr, DecidableEq

/-- The sequence of datastore accesses issued by a sequential `submitVote`
call: the read always runs; the write runs exactly when the read succeeded. -/
def submitVoteAccesses (db : DB) (pollId optionId : String) : List Access :=
  match fetchVotes db pollId optionId with
  | none => [Access.read pollId optionId]
  | some _ => [Access.read pollId optionId, Access.write pollId optionId]

/-- JS falsiness of a nullable string (`!x` for `x : string | null`):
`null` and `""` are falsy. -/
def isFalsyStr : Option String → Bool
  | none => true
  | some s => s == ""

/-- The `handleVote` server action of `src/app/polls/[id]/page.tsx`
(lines 144–158): reads `pollId` and `optionId` from the form data, throws
"Poll ID and option ID are required" when either is missing or empty, and
otherwise delegates to `submitVote`. -/
def handleVote (db : DB) (pollIdField optionIdField : Option String) :
    DB × Except String Unit :=
  if isFalsyStr pollIdField || isFalsyStr optionIdField then
    (db, Except.error "Poll ID and option ID are required")
  else
    submitVote db (pollIdField.getD "") (optionIdField.getD "")

/-- The datastore accesses issued by `handleVote`: none on the validation
path, those of `submitVote` otherwise. -/
def handleVoteAccesses (db : DB) (pollIdField optionIdField : Option String) :
    List Access :=
  if isFalsyStr pollIdField || isFalsyStr optionIdField then []
  else submitVoteAccesses db (pollIdField.getD "") (optionIdField.getD "")

/-- The structure assembled by `getPollDetails` in
`src/app/polls/[id]/page.tsx` (its `PollDetail` type): poll fields, the
option rows in insertion order, and the derived total. -/
structure PollDetail where
  id : String
  title : String
  description : String
  createdBy : String
  options : List OptionRow
  totalVotes : Int
  deriving Repr, DecidableEq

/-- `getPollDetails` (`page.tsx` lines 70–115): fetches the poll row by id
together with its options (`.single()`, succeeding exactly when one poll row
matches), computes `totalVotes` by `reduce((sum, o) => sum + (o.votes || 0), 0)`
over the option rows, maps a null description to `''`, and returns `null`
both when the query reports an error and when the poll is missing; the
surrounding `try/catch` also returns `null` on any thrown failure.
`fetchFails` is the exogenous event that the datastore query fails. -/
def getPollDetails (db : DB) (fetchFails : Bool) (pollId : String) :
    Option PollDetail :=
  if fetchFails then none
  else
    match db.polls.filter (fun p => p.id == pollId) with
    | [p] =>
        let opts := db.pollOptions.filter (fun r => r.pollId == pollId)
        some
          { id := p.id
            title := p.title
            description := p.description.getD ""
            createdBy := p.createdBy
            options := opts
            totalVotes := opts.foldl (fun sum r => sum + r.votes) 0 }
    | _ => none

/-! ## Exact model of the JS double-precision percentage computation

The page renders, for each option,
`total_votes > 0 ? Math.round((option.votes / poll.total_votes) * 100) : 0`
(`page.tsx` line 255), computed on IEEE-754 binary64 doubles.  The model below
is exact: every intermediate double is represented as a dyadic rational
`m * 2 ^ k` with `m k` integers, and each JS operation rounds its exact result
to the nearest representable value (round-to-nearest, ties-to-even, 53-bit
significand).  The quantities occurring here — quotients of vote counts and
their hundredfolds — are far from the overflow and subnormal ranges, where
this is the complete IEEE-754 semantics.  `Math.round` returns the integer
closest to the exact value of its double argument, ties toward `+∞`
(ECMA-262 `Math.round`). -/

/-- Fuelled binary logarithm: `log2Aux fuel n` is `⌊log₂ n⌋` for `1 ≤ n < 2 ^ fuel`
(and `0` for `n = 0`).  Structural recursion on the fuel keeps it
kernel-reducible. -/
def log2Aux : Nat → Nat → Nat
  | 0, _ => 0
  | fuel+1, n => if n < 2 then 0 else log2Aux fuel (n / 2) + 1

/-- `⌊log₂ n⌋` for the word-sized numbers arising here. -/
def natLog2 (n : Nat) : Nat := log2Aux 64 n

/-- Round the fraction `a / b` (with `b > 0`) to the nearest natural number,
ties to even. -/
def rneFrac (a b : Nat) : Nat :=
  let q := a / b
  let r := a % b
  if 2 * r < b then q
  else if b < 2 * r then q + 1
  else if q % 2 = 0 then q else q + 1

/-- Decides `2 ^ e ≤ v / t` for naturals `v, t` with `t > 0` and a signed
exponent `e`. -/
def pow2LeFrac (t v : Nat) : ℤ → Bool
  | Int.ofNat n => t * 2 ^ n ≤ v
  | Int.negSucc n => t ≤ v * 2 ^ (n + 1)

/-- The binade of `v / t` (for `v, t > 0`): the exponent `e` with
`2 ^ e ≤ v / t < 2 ^ (e + 1)`. -/
def binade (v t : Nat) : ℤ :=
  let e0 : ℤ := (natLog2 v : ℤ) - (natLog2 t : ℤ)
  if pow2LeFrac t v e0 then (if pow2LeFrac t v (e0 + 1) then e0 + 1 else e0)
  else e0 - 1

/-- The 53-bit significand of the double nearest to `v / t` at binade `e`:
round-to-nearest-ties-even of `(v / t) * 2 ^ (52 - e)`. -/
def doubleSig (v t : Nat) (e : ℤ) : Nat :=
  match (52 : ℤ) - e with
  | Int.ofNat n => rneFrac (v * 2 ^ n) t
  | Int.negSucc n => rneFrac v (t * 2 ^ (n + 1))

/-- `⌊m * 2 ^ k + 1/2⌋` for a dyadic rational `m * 2 ^ k` with `m : Nat` —
the ECMA-262 `Math.round` of a non-negative double. -/
def roundHalfUpDyadic (m : Nat) : ℤ → Nat
  | Int.ofNat n => m * 2 ^ n
  | Int.negSucc n => (2 * m + 2 ^ (n + 1)) / 2 ^ (n + 2)

/-- `Math.round((v / t) * 100)` evaluated on JS doubles, for `v ≥ 0, t > 0`:
the division rounds to the nearest double `m1 * 2 ^ (e - 52)`, the
multiplication by `100` rounds the exact product `100 * m1 * 2 ^ (e - 52)`
to the nearest double again, and `Math.round` rounds the result half-up. -/
def jsPercent (v t : Nat) : Nat :=
  if v = 0 then 0
  else
    let e := binade v t
    let m1 := doubleSig v t e
    let A := 100 * m1
    let la := natLog2 A
    if la ≤ 52 then roundHalfUpDyadic A (e - 52)
    else roundHalfUpDyadic (rneFrac A (2 ^ (la - 52))) (e - 52 + (la - 52))

/-- The per-option percentage as rendered by `PollDetailPage`
(`page.tsx` line 255):
`total_votes > 0 ? Math.round((option.votes / poll.total_votes) * 100) : 0`.
The datastore-reachable vote counts are non-negative (see the `Reachable`
invariant below); `Int.toNat` restricts the double model to that domain. -/
def optionPercentage (votes totalVotes : Int) : ℤ :=
  if 0 < totalVotes then (jsPercent votes.toNat totalVotes.toNat : ℤ) else 0

/-- `calculatePercentage` of `poll-voting-form.tsx` (lines 70–73):
`if (localTotalVotes === 0) return 0; return Math.round((votes / localTotalVotes) * 100)`.
As with `optionPercentage`, the double model covers the datastore-reachable
domain of non-negative counts. -/
def calculatePercentage (votes totalVotes : Int) : ℤ :=
  if totalVotes == 0 then 0
  else (jsPercent votes.toNat totalVotes.toNat : ℤ)

/-- The percentage the *specification* prescribes, in its own words
(spec §4.2): `round(100 * o.votes / totalVotes)` with round-half-up to the
nearest integer when `totalVotes > 0`, else `0`.  For non-negative counts,
`⌊100v/t + 1/2⌋ = ⌊(200v + t) / (2t)⌋`.  This definition follows the spec,
not the source; it exists to be compared against `optionPercentage`. -/
def specPercentage (votes totalVotes : Int) : ℤ :=
  if 0 < totalVotes then
    ((200 * votes.toNat + totalVotes.toNat) / (2 * totalVotes.toNat) : Nat)
  else 0

/-- The list of percentages the poll detail page renders for a poll: one
`optionPercentage` per option, each against the poll's `total_votes`. -/
def pollPercentages (db : DB) (fetchFails : Bool) (pollId : String) :
    Option (List ℤ) :=
  (getPollDetails db fetchFails pollId).map fun d =>
    d.options.map fun o => optionPercentage o.votes d.totalVotes

/-! ## Lifecycle operations (`actions.ts`) -/

/-- JS whitespace as it occurs in form input (ASCII space, tab, newlines). -/
def isWSChar (c : Char) : Bool :=
  c == ' ' || c == '\t' || c == '\n' || c == '\r'

/-- `String.prototype.trim()`: strip leading and trailing whitespace.
Written over the character list so that it evaluates in the kernel; on the
inputs arising here it coincides with the JS built-in. -/
def trimStr (s : String) : String :=
  ⟨((s.data.dropWhile isWSChar).reverse.dropWhile isWSChar).reverse⟩

/-- `String.prototype.startsWith(pre)`, over the character lists. -/
def strStartsWith (s pre : String) : Bool :=
  List.isPrefixOf pre.data s.data

/-- One entry of the parsed `options` array handed to `createPoll`
(`CreatePollInput`): `{ text: string }`. -/
structure CreateOptionInput where
  text : String
  deriving Repr, DecidableEq

/-- `description?.trim() || null` (`actions.ts` line 131): a missing or
blank description is stored as SQL `NULL`, otherwise the trimmed text. -/
def normalizeDescription (description : Option String) : Option String :=
  match description with
  | none => none
  | some s => let t := trimStr s; if t = "" then none else some t

/-- A nullable string is "blank" when `s?.trim()` is JS-falsy: missing,
empty, or whitespace-only.  This is the condition under which
`!title?.trim()` rejects the title and `description?.trim() || null` stores
`NULL`. -/
def strBlank (s : Option String) : Bool :=
  match s with
  | none => true
  | some s => trimStr s == ""

/-- `createPoll` (`actions.ts` lines 77–175), from the point where the user
is authenticated and the `options` form field has been JSON-parsed into
`optionsArray`.  `title` and `description` are the nullable form fields;
`newPollId` and `newOptionIds` stand for the row identifiers the datastore
generates for the inserts.  Validations, in source order: `!title?.trim()`
throws "Poll title is required"; fewer than two options throws "At least 2
options are required"; an option whose text trims to empty throws "All poll
options must have text content".  Then the poll row is inserted with the
trimmed title and normalized description, and one option row per entry is
inserted with trimmed text and `votes: 0`. -/
def createPoll (db : DB) (userId : String) (title description : Option String)
    (optionsArray : List CreateOptionInput) (newPollId : String)
    (newOptionIds : List String) : Except String DB :=
  if strBlank title then
    Except.error "Poll title is required"
  else if optionsArray.length < 2 then
    Except.error "At least 2 options are required"
  else if optionsArray.any (fun o => trimStr o.text == "") then
    Except.error "All poll options must have text content"
  else
    let poll : PollRow :=
      { id := newPollId
        title := trimStr (title.getD "")
        description := normalizeDescription description
        createdBy := userId }
    let optionsToInsert : List OptionRow :=
      (optionsArray.zip newOptionIds).map fun p =>
        { id := p.2, pollId := newPollId, text := trimStr p.1.text, votes := 0 }
    Except.ok
      { polls := db.polls ++ [poll]
        pollOptions := db.pollOptions ++ optionsToInsert }

/-- One entry of `updatePoll`'s `options` argument:
`{ id: string; text: string; votes: number }`. -/
structure UpdateOptionInput where
  id : String
  text : String
  votes : Int
  deriving Repr, DecidableEq

/-- `updatePoll`'s argument object (`actions.ts` lines 374–379). -/
structure UpdatePollInput where
  pollId : String
  title : String
  description : String
  options : List UpdateOptionInput
  deriving Repr, DecidableEq

/-- The body of `updatePoll`'s per-option loop (`actions.ts` lines 418–452):
an option whose id starts with `new_` is inserted with `votes: 0` under a
fresh datastore id; an existing option (looked up in the `existingOptions`
snapshot) whose text changed has *only* its text updated, by
`.eq('id', option.id)`; anything else is left alone.  The accumulator
carries the evolving state and the count of fresh ids consumed. -/
def updatePollStep (pollId : String) (existingOptions : List OptionRow)
    (freshId : Nat → String) (acc : DB × Nat) (o : UpdateOptionInput) :
    DB × Nat :=
  let d := acc.1
  let k := acc.2
  if strStartsWith o.id "new_" then
    ({ d with
        pollOptions := d.pollOptions ++
          [{ id := freshId k, pollId := pollId, text := o.text, votes := 0 }] },
     k + 1)
  else
    match existingOptions.find? (fun e => e.id == o.id) with
    | some e =>
        if e.text ≠ o.text then
          ({ d with
              pollOptions := d.pollOptions.map fun r =>
                if r.id == o.id then { r with text := o.text } else r },
           k)
        else (d, k)
    | none => (d, k)

/-- The poll-metadata phase of `updatePoll` (`actions.ts` lines 388–394):
update title and description on the poll row by id;
`updateData.description || null` stores `NULL` for an empty description. -/
def updatePollMeta (db : DB) (u : UpdatePollInput) : DB :=
  { db with
      polls := db.polls.map fun p =>
        if p.id == u.pollId then
          { p with
              title := u.title
              description :=
                if u.description = "" then none else some u.description }
        else p }

/-- The `existingOptions` snapshot (`actions.ts` lines 405–408): all option
rows of the poll, fetched once after the metadata update and used both by
the per-option loop and by the removal pass. -/
def updatePollExisting (db : DB) (u : UpdatePollInput) : List OptionRow :=
  (updatePollMeta db u).pollOptions.filter (fun r => r.pollId == u.pollId)

/-- The state after `updatePoll`'s per-option loop. -/
def updatePollLoop (db : DB) (u : UpdatePollInput) (freshId : Nat → String) :
    DB :=
  (u.options.foldl (updatePollStep u.pollId (updatePollExisting db u) freshId)
    (updatePollMeta db u, 0)).1

/-- The ids of the snapshotted options to delete (`actions.ts` lines
457–463): those absent from the submitted list once `new_`-prefixed entries
are excluded. -/
def updatePollRemoveIds (db : DB) (u : UpdatePollInput) : List String :=
  ((updatePollExisting db u).filter fun e =>
      ¬ ((u.options.filter fun o => ¬ strStartsWith o.id "new_").map
          UpdateOptionInput.id).contains e.id).map OptionRow.id

/-- `updatePoll` (`actions.ts` lines 374–495): metadata update, snapshot,
per-option loop, then deletion of each removed option by `.eq('id', …)`.
`freshId` stands for the datastore-generated ids of inserted options. -/
def updatePoll (db : DB) (u : UpdatePollInput) (freshId : Nat → String) : DB :=
  { updatePollLoop db u freshId with
      pollOptions := (updatePollLoop db u freshId).pollOptions.filter fun r =>
        ¬ (updatePollRemoveIds db u).contains r.id }

/-- `deletePoll` (`actions.ts` lines 291–326): deletes the poll row by id;
the schema's `ON DELETE CASCADE` on `poll_options.poll_id` removes the
poll's options with it. -/
def deletePoll (db : DB) (pollId : String) : DB :=
  { polls := db.polls.filter fun p => ¬ p.id == pollId
    pollOptions := db.pollOptions.filter fun r => ¬ r.pollId == pollId }

/-- Datastore states reachable from the empty store through the repository's
mutating operations. -/
inductive Reachable : DB → Prop
  | empty : Reachable ⟨[], []⟩
  | create {db userId title description optionsArray newPollId newOptionIds db'} :
      Reachable db →
      createPoll db userId title description optionsArray newPollId newOptionIds =
        Except.ok db' →
      Reachable db'
  | vote {db pollId optionId} :
      Reachable db → Reachable (submitVote db pollId optionId).1
  | update {db u freshId} :
      Reachable db → Reachable (updatePoll db u freshId)
  | delete {db pollId} :
      Reachable db → Reachable (deletePoll db pollId)

deriving instance DecidableEq for Except

/-! ## Concrete states used by witnesses and counterexamples -/

/-- A store with one poll `p1` owning a single option `o1` with `votes = 0`. -/
def raceDB : DB :=
  { polls := [{ id := "p1", title := "Lunch", description := none, createdBy := "u1" }]
    pollOptions := [{ id := "o1", pollId := "p1", text := "Pizza", votes := 0 }] }

/-- The spec's "Colors" scenario start state: options Red and Blue, both at
`votes = 0`. -/
def colorsDB : DB :=
  { polls := [{ id := "poll1", title := "Colors", description := none, createdBy := "u1" }]
    pollOptions :=
      [{ id := "red", pollId := "poll1", text := "Red", votes := 0 },
       { id := "blue", pollId := "poll1", text := "Blue", votes := 0 }] }

/-- Two polls: `pollA` with option `oa`, `pollB` with option `ob`; used for
cross-poll voting. -/
def crossDB : DB :=
  { polls :=
      [{ id := "pollA", title := "A", description := none, createdBy := "u1" },
       { id := "pollB", title := "B", description := none, createdBy := "u2" }]
    pollOptions :=
      [{ id := "oa", pollId := "pollA", text := "a1", votes := 5 },
       { id := "ob", pollId := "pollB", text := "b1", votes := 7 }] }

/-- A poll with three options holding one vote each. -/
def threeTieDB : DB :=
  { polls := [{ id := "pt", title := "Tie3", description := none, createdBy := "u1" }]
    pollOptions :=
      [{ id := "t1", pollId := "pt", text := "A", votes := 1 },
       { id := "t2", pollId := "pt", text := "B", votes := 1 },
       { id := "t3", pollId := "pt", text := "C", votes := 1 }] }

/-- A poll with six options holding one vote each. -/
def sixTieDB : DB :=
  { polls := [{ id := "ps", title := "Tie6", description := none, createdBy := "u1" }]
    pollOptions :=
      [{ id := "s1", pollId := "ps", text := "A", votes := 1 },
       { id := "s2", pollId := "ps", text := "B", votes := 1 },
       { id := "s3", pollId := "ps", text := "C", votes := 1 },
       { id := "s4", pollId := "ps", text := "D", votes := 1 },
       { id := "s5", pollId := "ps", text := "E", votes := 1 },
       { id := "s6", pollId := "ps", text := "F", votes := 1 }] }

/-- A poll with seven options holding one vote each. -/
def sevenTieDB : DB :=
  { polls := [{ id := "pv", title := "Tie7", description := none, createdBy := "u1" }]
    pollOptions :=
      [{ id := "v1", pollId := "pv", text := "A", votes := 1 },
       { id := "v2", pollId := "pv", text := "B", votes := 1 },
       { id := "v3", pollId := "pv", text := "C", votes := 1 },
       { id := "v4", pollId := "pv", text := "D", votes := 1 },
       { id := "v5", pollId := "pv", text := "E", votes := 1 },
       { id := "v6", pollId := "pv", text := "F", votes := 1 },
       { id := "v7", pollId := "pv", text := "G", votes := 1 }] }

/-! ## C1 — lost update under concurrent `submitVote` -/

/-- **C1.**  The claim says concurrent `submitVote` calls on one option never
lose updates because the implementation uses an atomic increment, optimistic
retry, or a single-writer queue.  The code is a bare read-then-write, and the
classic lost-update interleaving refutes the guarantee: starting from
`votes = 0`, two calls both read `0` (both reads against `raceDB`), then both
write `0 + 1` in turn; both calls report success, yet the final count is `1`,
not the claimed `0 + 2`. -/
theorem submitVote_lost_update_interleaving :
    (submitVoteTwoPhase raceDB raceDB "p1" "o1").2 = Except.ok () ∧
    (submitVoteTwoPhase raceDB
        (submitVoteTwoPhase raceDB raceDB "p1" "o1").1 "p1" "o1").2 =
      Except.ok () ∧
    fetchVotes
        (submitVoteTwoPhase raceDB
          (submitVoteTwoPhase raceDB raceDB "p1" "o1").1 "p1" "o1").1
        "p1" "o1" = some 1 ∧
    (1 : Int) ≠ 0 + 2 := by decide

/-! ## C2 — `submitVote` racing with option deletion -/

/-- Helper: an update whose compound filter matches no row leaves the store
unchanged and reports zero rows affected. -/
theorem updateVotes_no_match (db : DB) (pollId optionId : String) (n : Int)
    (h : ∀ r ∈ db.pollOptions, optionMatches pollId optionId r = false) :
    updateVotes db pollId optionId n = (db, 0) := by
  have key : ∀ l : List OptionRow,
      (∀ r ∈ l, optionMatches pollId optionId r = false) →
      (l.map fun r =>
          if optionMatches pollId optionId r then { r with votes := n }
          else r) = l ∧
      l.filter (optionMatches pollId optionId) = [] := by
    intro l hl
    induction l with
    | nil => exact ⟨rfl, rfl⟩
    | cons a t ih =>
        have ha : optionMatches pollId optionId a = false := hl a (by simp)
        have ht := ih fun r hr => hl r (by simp [hr])
        simp [ha, ht.1, ht.2, List.filter_cons]
  have hdb := key db.pollOptions h
  show (⟨{ db with pollOptions := _ }, _⟩ : DB × Nat) = (db, 0)
  rw [Prod.mk.injEq]
  refine ⟨?_, by rw [hdb.2]; rfl⟩
  calc ({ db with pollOptions := db.pollOptions.map fun r =>
            if optionMatches pollId optionId r then { r with votes := n }
            else r } : DB)
      = { db with pollOptions := db.pollOptions } := by rw [hdb.1]
    _ = db := rfl


/-- Helper: the compound filter selects nothing from a list none of whose
rows match. -/
theorem filter_optionMatches_nil (pollId optionId : String)
    (l : List OptionRow)
    (h : ∀ r ∈ l, optionMatches pollId optionId r = false) :
    l.filter (optionMatches pollId optionId) = [] := by
  induction l with
  | nil => rfl
  | cons a t ih =>
      have ha : optionMatches pollId optionId a = false := h a (by simp)
      have ht := ih fun r hr => h r (by simp [hr])
      simp [List.filter_cons, ha, ht]

/-- Helper: the read step reports nothing when no row matches. -/
theorem fetchVotes_none (db : DB) (pollId optionId : String)
    (h : ∀ r ∈ db.pollOptions, optionMatches pollId optionId r = false) :
    fetchVotes db pollId optionId = none := by
  unfold fetchVotes
  rw [filter_optionMatches_nil pollId optionId db.pollOptions h]

/-- **C2 (amended).**  When the target option row is gone by the time the
write runs (`dbWrite` has no matching row) but the read had succeeded against
`dbRead`, the `submitVote` call *silently succeeds*: the update matches zero
rows, which the datastore does not report as an error, and the source checks
only the error flag — so the call returns normally, leaving the store
unchanged.  It does not fail with the write-error path
("Failed to submit vote") and does not throw an unhandled exception. -/
theorem submitVote_deleted_option_silent_success
    (dbRead dbWrite : DB) (pollId optionId : String) (v : Int)
    (hread : fetchVotes dbRead pollId optionId = some v)
    (hgone : ∀ r ∈ dbWrite.pollOptions, optionMatches pollId optionId r = false) :
    (submitVoteTwoPhase dbRead dbWrite pollId optionId).2 = Except.ok () ∧
    (submitVoteTwoPhase dbRead dbWrite pollId optionId).1 = dbWrite ∧
    (updateVotes dbWrite pollId optionId (v + 1)).2 = 0 := by
  have hupd := updateVotes_no_match dbWrite pollId optionId (v + 1) hgone
  refine ⟨?_, ?_, ?_⟩ <;> simp [submitVoteTwoPhase, hread, hupd]

/-- **C2 (witness).**  The amended behaviour at a concrete run: the option
`o1` is read from `raceDB` (votes `0`), the poll — and with it the option —
is deleted before the write, and the call still reports success with zero
rows affected. -/
theorem submitVote_deleted_option_silent_success_witness :
    (submitVoteTwoPhase raceDB (deletePoll raceDB "p1") "p1" "o1").2 =
      Except.ok () ∧
    (submitVoteTwoPhase raceDB (deletePoll raceDB "p1") "p1" "o1").1 =
      deletePoll raceDB "p1" ∧
    (updateVotes (deletePoll raceDB "p1") "p1" "o1" (0 + 1)).2 = 0 :=
  submitVote_deleted_option_silent_success raceDB (deletePoll raceDB "p1")
    "p1" "o1" 0 (by decide) (by decide)

/-- **C2 (counterexample).**  The claim — that such a call fails with
`WriteError` because the write reports zero rows affected — is false on the
code: in the concrete deleted-between-read-and-write run the write does
affect zero rows, yet the call returns success, not an error. -/
theorem submitVote_deleted_option_claim_false :
    fetchVotes raceDB "p1" "o1" = some 0 ∧
    (updateVotes (deletePoll raceDB "p1") "p1" "o1" 1).2 = 0 ∧
    (submitVoteTwoPhase raceDB (deletePoll raceDB "p1") "p1" "o1").2 =
      Except.ok () ∧
    (submitVoteTwoPhase raceDB (deletePoll raceDB "p1") "p1" "o1").2 ≠
      Except.error "Failed to submit vote" := by decide

/-! ## C3 — cross-poll option ids are rejected -/

/-- **C3.**  Voting "for poll A" with an option that belongs to a different
poll always fails on the read step — the fetch filters by both
`id = optionId` and `poll_id = pollId` and matches no row — with the
`NotFoundError` message "Failed to fetch current vote count", and leaves the
whole store (in particular every option's vote count, in both polls)
unchanged.  Option ids are unique (`poll_options.id` is the primary key),
which the `Nodup` hypothesis captures. -/
theorem submitVote_cross_poll_rejected (db : DB) (pollIdA : String)
    (o : OptionRow)
    (hnodup : (db.pollOptions.map OptionRow.id).Nodup)
    (ho : o ∈ db.pollOptions) (hdiff : o.pollId ≠ pollIdA) :
    submitVote db pollIdA o.id =
      (db, Except.error "Failed to fetch current vote count") := by
  have hnone : ∀ r ∈ db.pollOptions, optionMatches pollIdA o.id r = false := by
    intro r hr
    by_contra hne
    have htrue : optionMatches pollIdA o.id r = true := by
      cases hmo : optionMatches pollIdA o.id r
      · exact absurd hmo hne
      · rfl
    have hpair : r.id = o.id ∧ r.pollId = pollIdA := by
      simpa [optionMatches] using htrue
    have hro : r = o :=
      List.inj_on_of_nodup_map hnodup hr ho hpair.1
    exact hdiff (hro ▸ hpair.2)
  have hfetch := fetchVotes_none db pollIdA o.id hnone
  unfold submitVote submitVoteTwoPhase
  rw [hfetch]

/-- **C3 (witness).**  Concrete cross-poll vote: option `ob` belongs to
`pollB`; submitting it against `pollA` fails with the not-found message and
returns `crossDB` unchanged. -/
theorem submitVote_cross_poll_rejected_witness :
    submitVote crossDB "pollA"
        (OptionRow.id { id := "ob", pollId := "pollB", text := "b1", votes := 7 }) =
      (crossDB, Except.error "Failed to fetch current vote count") :=
  submitVote_cross_poll_rejected crossDB "pollA"
    { id := "ob", pollId := "pollB", text := "b1", votes := 7 }
    (by decide) (by decide) (by decide)

/-! ## C4 — where missing/empty identifiers are rejected -/

/-- **C4 (counterexample).**  The claim — a `submitVote` call with an empty
`pollId` or `optionId` is rejected with `ValidationError` *before any
datastore access* — is false on the code: `submitVote` itself validates
nothing.  Called directly with an empty `optionId` it issues the datastore
read (the access list is nonempty) and fails with the not-found message of
the failed fetch, not with the validation message. -/
theorem submitVote_empty_id_claim_false :
    submitVoteAccesses raceDB "p1" "" = [Access.read "p1" ""] ∧
    submitVoteAccesses raceDB "p1" "" ≠ [] ∧
    (submitVote raceDB "p1" "").2 =
      Except.error "Failed to fetch current vote count" ∧
    (submitVote raceDB "p1" "").2 ≠
      Except.error "Poll ID and option ID are required" := by decide

/-- **C4 (amended).**  `submitVote` performs no pre-datastore validation: a
call with an empty `pollId` or `optionId` issues the datastore read — which,
since no stored row carries an empty identifier, matches nothing — and fails
with the `NotFoundError` message "Failed to fetch current vote count",
leaving the store unchanged.  The before-any-access rejection with the
validation message "Poll ID and option ID are required" exists only in the
`handleVote` wrapper of the poll page, which checks the form fields before
calling `submitVote` and issues no datastore access when one is missing or
empty. -/
theorem submitVote_empty_id_amended (db : DB) (pollId optionId : String)
    (hempty : optionId = "" ∨ pollId = "")
    (hids : ∀ r ∈ db.pollOptions, r.id ≠ "" ∧ r.pollId ≠ "") :
    submitVoteAccesses db pollId optionId = [Access.read pollId optionId] ∧
    (submitVote db pollId optionId).2 =
      Except.error "Failed to fetch current vote count" ∧
    (submitVote db pollId optionId).1 = db ∧
    (∀ pf of : Option String, (isFalsyStr pf || isFalsyStr of) = true →
      handleVote db pf of =
        (db, Except.error "Poll ID and option ID are required") ∧
      handleVoteAccesses db pf of = []) := by
  have hno : ∀ r ∈ db.pollOptions, optionMatches pollId optionId r = false := by
    intro r hr
    rcases hempty with h | h <;>
      simp [optionMatches, h, (hids r hr).1, (hids r hr).2]
  have hfetch := fetchVotes_none db pollId optionId hno
  refine ⟨?_, ?_, ?_, ?_⟩
  · unfold submitVoteAccesses
    rw [hfetch]
  · unfold submitVote submitVoteTwoPhase
    rw [hfetch]
  · unfold submitVote submitVoteTwoPhase
    rw [hfetch]
  · intro pf of h
    constructor <;> simp [handleVote, handleVoteAccesses, h]

/-- **C4 (witness).**  The amended behaviour at concrete inputs: an empty
`optionId` against `raceDB` reaches the datastore and fails at the fetch,
while `handleVote` with missing fields rejects before any access. -/
theorem submitVote_empty_id_amended_witness :
    submitVoteAccesses raceDB "p1" "" = [Access.read "p1" ""] ∧
    (submitVote raceDB "p1" "").2 =
      Except.error "Failed to fetch current vote count" ∧
    (submitVote raceDB "p1" "").1 = raceDB ∧
    handleVote raceDB none none =
      (raceDB, Except.error "Poll ID and option ID are required") ∧
    handleVoteAccesses raceDB none none = [] :=
  have h := submitVote_empty_id_amended raceDB "p1" "" (Or.inl rfl) (by decide)
  ⟨h.1, h.2.1, h.2.2.1, (h.2.2.2 none none (by decide)).1,
   (h.2.2.2 none none (by decide)).2⟩

/-! ## C5, C6 — percentages -/

/-- Helper: the `totalVotes` that `getPollDetails` returns is the sum of the
`votes` of exactly the option rows it returns (both come from the same
single filter pass). -/
theorem getPollDetails_totalVotes (db : DB) (f : Bool) (pid : String)
    (d : PollDetail) (h : getPollDetails db f pid = some d) :
    d.totalVotes = (d.options.map OptionRow.votes).sum := by
  cases f with
  | true => simp [getPollDetails] at h
  | false =>
      unfold getPollDetails at h
      simp only [if_neg (by simp : ¬ (false : Bool) = true)] at h
      rcases hm : db.polls.filter (fun p => p.id == pid) with _ | ⟨p, t⟩
      · rw [hm] at h; simp at h
      · cases t with
        | nil =>
            rw [hm] at h
            have hd := (Option.some.injEq _ _).mp h
            subst hd
            rw [List.sum_eq_foldl, List.foldl_map]
        | cons q u => rw [hm] at h; simp at h

/-- A poll with one option at 23 votes and one at 17 (`totalVotes = 40`). -/
def fortyDB : DB :=
  { polls := [{ id := "pf", title := "Forty", description := none, createdBy := "u1" }]
    pollOptions :=
      [{ id := "f1", pollId := "pf", text := "A", votes := 23 },
       { id := "f2", pollId := "pf", text := "B", votes := 17 }] }

/-- **C5 (counterexample).**  The claim — the rendered percentage equals
round-half-up of the exact rational `100 * votes / totalVotes` — is false at
`votes = 23, totalVotes = 40`: the exact value is `57.5`, which rounds half-up
to `58` (`specPercentage`, written from the spec's words), but the code
computes `Math.round((23 / 40) * 100)` on doubles, where
`(23 / 40) * 100 = 57.49999999999999…` and `Math.round` yields `57`.  The
concrete poll `fortyDB` (options at 23 and 17 votes) renders `[57, 43]`,
not the spec's `[58, 43]`. -/
theorem percentage_rounding_claim_false :
    optionPercentage 23 40 = 57 ∧
    specPercentage 23 40 = 58 ∧
    optionPercentage 23 40 ≠ specPercentage 23 40 ∧
    pollPercentages fortyDB false "pf" = some [57, 43] := by decide

/-- **C5 (amended).**  When `totalVotes > 0` the rendered percentage is
`Math.round` of the *double-precision* evaluation of
`(votes / totalVotes) * 100`; this agrees with the spec's exact round-half-up
on typical inputs (witnessed at `3/4`, `1/4`, `1/3` and the exact tie `1/8`)
but not universally — at `23/40` the code yields `57` where exact
round-half-up gives `58`.  When `totalVotes = 0` (in particular for a poll
whose options all have `votes = 0`, whose returned `totalVotes` is `0`),
every option's percentage is `0` and no division is attempted.
`calculatePercentage` of the voting form agrees with the page's computation
on all non-negative totals. -/
theorem percentage_computation_amended :
    (∀ db pid d, getPollDetails db false pid = some d →
      (∀ o ∈ d.options, o.votes = 0) →
      d.totalVotes = 0 ∧
      ∀ o ∈ d.options, optionPercentage o.votes d.totalVotes = 0) ∧
    (∀ v : Int, optionPercentage v 0 = 0) ∧
    (∀ v t : Int, 0 ≤ t → calculatePercentage v t = optionPercentage v t) ∧
    optionPercentage 23 40 = 57 ∧ specPercentage 23 40 = 58 ∧
    optionPercentage 3 4 = specPercentage 3 4 ∧
    optionPercentage 1 4 = specPercentage 1 4 ∧
    optionPercentage 1 3 = specPercentage 1 3 ∧
    optionPercentage 1 8 = specPercentage 1 8 := by
  refine ⟨?_, ?_, ?_, by decide, by decide, by decide, by decide, by decide, by decide⟩
  · intro db pid d h hzero
    have hall : ∀ x ∈ d.options.map OptionRow.votes, x = 0 := by
      intro x hx
      rcases List.mem_map.mp hx with ⟨o, ho, rfl⟩
      exact hzero o ho
    have htot : d.totalVotes = 0 := by
      rw [getPollDetails_totalVotes db false pid d h]
      exact List.sum_eq_zero hall
    refine ⟨htot, ?_⟩
    intro o ho
    rw [htot]
    simp [optionPercentage]
  · intro v; simp [optionPercentage]
  · intro v t ht
    rcases eq_or_lt_of_le ht with h0 | hpos
    · rw [← h0]; simp [optionPercentage, calculatePercentage]
    · have : t ≠ 0 := by omega
      simp [optionPercentage, calculatePercentage, hpos, this]

/-- **C5 (witness).**  The zero-vote clause of the amended claim at the
concrete "Colors" poll (both options at `votes = 0`): the returned
`totalVotes` is `0` and the Red row's percentage against it is `0`. -/
theorem percentage_computation_amended_witness :
    ({ id := "poll1", title := "Colors", description := "", createdBy := "u1",
       options :=
         [{ id := "red", pollId := "poll1", text := "Red", votes := 0 },
          { id := "blue", pollId := "poll1", text := "Blue", votes := 0 }],
       totalVotes := 0 } : PollDetail).totalVotes = 0 ∧
    optionPercentage
      ({ id := "red", pollId := "poll1", text := "Red", votes := 0 } : OptionRow).votes
      ({ id := "poll1", title := "Colors", description := "", createdBy := "u1",
         options :=
           [{ id := "red", pollId := "poll1", text := "Red", votes := 0 },
            { id := "blue", pollId := "poll1", text := "Blue", votes := 0 }],
         totalVotes := 0 } : PollDetail).totalVotes = 0 :=
  have h := percentage_computation_amended.1 colorsDB "poll1" _ (by decide)
    (by decide)
  ⟨h.1, h.2 { id := "red", pollId := "poll1", text := "Red", votes := 0 }
    (by decide)⟩

/-- **C6 (counterexample).**  The claim that percentage sums always lie in
`[99, 101]` is false: six options with one vote each all render
`Math.round((1/6)*100) = 17`, summing to `102`. -/
theorem percentage_sum_claim_false :
    pollPercentages sixTieDB false "ps" = some [17, 17, 17, 17, 17, 17] ∧
    ((pollPercentages sixTieDB false "ps").getD []).sum = 102 ∧
    ¬ (99 ≤ ((pollPercentages sixTieDB false "ps").getD []).sum ∧
       ((pollPercentages sixTieDB false "ps").getD []).sum ≤ 101) := by decide

/-- **C6 (amended).**  In the spec's concrete case — three options with one
vote each — every percentage rounds to `33` and the sum is `99`, inside
`[99, 101]`.  But the sum is *not* confined to `[99, 101]` for all inputs:
rounding drift grows with the number of options — six one-vote options sum
to `102`, seven to `98`. -/
theorem percentage_sum_amended :
    pollPercentages threeTieDB false "pt" = some [33, 33, 33] ∧
    ((pollPercentages threeTieDB false "pt").getD []).sum = 99 ∧
    (99 ≤ (99 : ℤ) ∧ (99 : ℤ) ≤ 101) ∧
    ((pollPercentages sixTieDB false "ps").getD []).sum = 102 ∧
    ((pollPercentages sevenTieDB false "pv").getD []).sum = 98 := by decide

/-! ## C7 — sequential composition of votes and the tally -/

/-- The "Colors" store after one sequential `submitVote` for Red. -/
def colorsStep1 : DB := (submitVote colorsDB "poll1" "red").1

/-- … after two votes for Red. -/
def colorsStep2 : DB := (submitVote colorsStep1 "poll1" "red").1

/-- … after three votes for Red. -/
def colorsStep3 : DB := (submitVote colorsStep2 "poll1" "red").1

/-- … after three votes for Red and one for Blue. -/
def colorsFinal : DB := (submitVote colorsStep3 "poll1" "blue").1

/-- **C7.**  Sequential composition is exact.  General clauses: a successful
(uninterfered) `submitVote` leaves the polls table alone and rewrites the
options table by bumping exactly the rows matched by the compound filter to
their own `votes + 1` (all other rows unchanged); and any detail returned by
`getPollDetails` has `totalVotes` equal to the sum of the votes of the
options in that same single read.  Concrete clause: from the "Colors" state
(Red and Blue at `0`), three `submitVote`s for Red and one for Blue all
succeed and yield the detail `Red.votes = 3`, `Blue.votes = 1`,
`totalVotes = 4`, with rendered percentages `[75, 25]`. -/
theorem sequential_tally_exact :
    (∀ db pollId optionId db',
      submitVote db pollId optionId = (db', Except.ok ()) →
      db'.polls = db.polls ∧
      db'.pollOptions = db.pollOptions.map fun s =>
        if optionMatches pollId optionId s then { s with votes := s.votes + 1 }
        else s) ∧
    (∀ db f pid d, getPollDetails db f pid = some d →
      d.totalVotes = (d.options.map OptionRow.votes).sum) ∧
    ((submitVote colorsDB "poll1" "red").2 = Except.ok () ∧
     (submitVote colorsStep1 "poll1" "red").2 = Except.ok () ∧
     (submitVote colorsStep2 "poll1" "red").2 = Except.ok () ∧
     (submitVote colorsStep3 "poll1" "blue").2 = Except.ok () ∧
     getPollDetails colorsFinal false "poll1" =
       some { id := "poll1", title := "Colors", description := "",
              createdBy := "u1",
              options :=
                [{ id := "red", pollId := "poll1", text := "Red", votes := 3 },
                 { id := "blue", pollId := "poll1", text := "Blue", votes := 1 }],
              totalVotes := 4 } ∧
     pollPercentages colorsFinal false "poll1" = some [75, 25]) := by
  refine ⟨?_, getPollDetails_totalVotes, by decide⟩
  intro db pollId optionId db' h
  unfold submitVote submitVoteTwoPhase at h
  rcases hf : fetchVotes db pollId optionId with _ | v
  · rw [hf] at h
    exact absurd (congrArg Prod.snd h) (by simp)
  · rw [hf] at h
    have hdb' : db' = (updateVotes db pollId optionId (v + 1)).1 :=
      (congrArg Prod.fst h).symm
    subst hdb'
    refine ⟨rfl, ?_⟩
    show db.pollOptions.map _ = db.pollOptions.map _
    apply List.map_congr_left
    intro s hs
    by_cases hms : optionMatches pollId optionId s
    · have hsr : s ∈ db.pollOptions.filter (optionMatches pollId optionId) :=
        List.mem_filter.mpr ⟨hs, hms⟩
      unfold fetchVotes at hf
      rcases hm : db.pollOptions.filter (optionMatches pollId optionId) with _ | ⟨r, t⟩
      · rw [hm] at hf; simp at hf
      · cases t with
        | nil =>
            rw [hm] at hf
            have hv : r.votes = v := by simpa using hf
            rw [hm] at hsr
            have : s = r := by simpa using hsr
            subst this
            simp [hms, hv]
        | cons q u => rw [hm] at hf; simp at hf
    · simp [hms]

/-- **C7 (witness).**  The general increment clause instantiated at the
first Red vote: the resulting state keeps the polls table and bumps exactly
the matched Red row. -/
theorem sequential_tally_exact_witness :
    colorsStep1.polls = colorsDB.polls ∧
    colorsStep1.pollOptions = colorsDB.pollOptions.map (fun s =>
      if optionMatches "poll1" "red" s then { s with votes := s.votes + 1 }
      else s) :=
  sequential_tally_exact.1 colorsDB "poll1" "red" colorsStep1 (by decide)

/-! ## C8 — absent poll versus swallowed datastore failure -/

/-- **C8 (counterexample).**  The claim — `getPollDetails` returns `null`
*iff* no poll with the id exists, with datastore failures surfaced as a
distinct catchable error — is false on the code: when the bulk fetch fails,
the `if (error …) return null` / `catch { return null }` paths return the
very same `null` even though the poll exists (here `p1` in `raceDB`), and
the return type offers no error channel at all. -/
theorem getPollDetails_failure_swallowed :
    (∃ p ∈ raceDB.polls, p.id = "p1") ∧
    getPollDetails raceDB true "p1" = none ∧
    getPollDetails raceDB false "p1" ≠ none := by decide

/-- **C8 (amended).**  `getPollDetails` returns `null` when no poll with the
given id exists *and also* whenever the datastore fetch fails: the failure is
swallowed into the same `null` (the function's only other outcome), so the
caller cannot distinguish a missing poll from a failed read, and no distinct
`AggregationError` is surfaced.  In the failure-free case, with poll ids
unique (the primary key), `null` is returned exactly when no poll row has
the requested id. -/
theorem getPollDetails_absent_amended :
    (∀ db pid, getPollDetails db true pid = none) ∧
    (∀ db pid, (db.polls.map PollRow.id).Nodup →
      (getPollDetails db false pid = none ↔ ∀ p ∈ db.polls, p.id ≠ pid)) := by
  refine ⟨fun db pid => by simp [getPollDetails], ?_⟩
  intro db pid hnodup
  rcases hm : db.polls.filter (fun p => p.id == pid) with _ | ⟨p, t⟩
  · have hnull : getPollDetails db false pid = none := by
      simp [getPollDetails, hm]
    have hforall : ∀ p ∈ db.polls, p.id ≠ pid := by
      intro p hp
      have := List.filter_eq_nil_iff.mp hm p hp
      simpa using this
    simp only [hnull, true_iff]
    exact hforall
  · cases t with
    | nil =>
        have hsome : getPollDetails db false pid ≠ none := by
          simp [getPollDetails, hm]
        have hpmem : p ∈ db.polls ∧ p.id = pid := by
          have := List.mem_filter.mp (hm ▸ List.mem_singleton_self p)
          simpa using this
        constructor
        · intro hn; exact absurd hn hsome
        · intro hall; exact absurd hpmem.2 (hall p hpmem.1)
    | cons q u =>
        exfalso
        have hsub : List.Sublist (db.polls.filter (fun p => p.id == pid)) db.polls :=
          List.filter_sublist db.polls
        have hnd : ((db.polls.filter (fun p => p.id == pid)).map PollRow.id).Nodup :=
          List.Nodup.sublist (List.Sublist.map PollRow.id hsub) hnodup
        rw [hm] at hnd
        have hpq : p.id ≠ q.id := by
          have := List.nodup_cons.mp hnd
          simp at this
          exact this.1.1
        have hp : p.id = pid := by
          have := List.mem_filter.mp (hm ▸ List.mem_cons_self p (q :: u))
          simpa using this.2
        have hq : q.id = pid := by
          have hqmem : q ∈ db.polls.filter (fun p => p.id == pid) := by
            rw [hm]; simp
          simpa using (List.mem_filter.mp hqmem).2
        exact hpq (hp.trans hq.symm)

/-- **C8 (witness).**  The amended iff at a concrete instance: no poll of
`raceDB` is named `nope`, so the failure-free read of `nope` is `null`. -/
theorem getPollDetails_absent_amended_witness :
    getPollDetails raceDB false "nope" = none :=
  (getPollDetails_absent_amended.2 raceDB "nope" (by decide)).mpr (by decide)

/-! ## C9 — the votes counter never decreases and starts at 0 -/

/-- Provenance of an option row after an operation: either it is a fresh row
initialized at `votes = 0`, or a row of the base state with the same id
carries exactly its vote count. -/
def optionProvenance (base : List OptionRow) (r : OptionRow) : Prop :=
  r.votes = 0 ∨ ∃ r0 ∈ base, r0.id = r.id ∧ r0.votes = r.votes

/-- Helper: every row produced by a (possibly failed) sequential
`submitVote` descends from a base row with the same identifiers whose count
it either keeps or increments by exactly one. -/
theorem submitVote_row_provenance (db : DB) (pollId optionId : String) :
    ∀ r' ∈ (submitVote db pollId optionId).1.pollOptions,
      ∃ r ∈ db.pollOptions, r'.id = r.id ∧ r'.pollId = r.pollId ∧
        (r'.votes = r.votes ∨ r'.votes = r.votes + 1) := by
  intro r' hr'
  unfold submitVote submitVoteTwoPhase at hr'
  rcases hf : fetchVotes db pollId optionId with _ | v
  · rw [hf] at hr'
    exact ⟨r', hr', rfl, rfl, Or.inl rfl⟩
  · rw [hf] at hr'
    have hr'' : r' ∈ db.pollOptions.map (fun r =>
        if optionMatches pollId optionId r then { r with votes := v + 1 }
        else r) := hr'
    rcases List.mem_map.mp hr'' with ⟨s, hs, rfl⟩
    by_cases hms : optionMatches pollId optionId s
    · have hsr : s ∈ db.pollOptions.filter (optionMatches pollId optionId) :=
        List.mem_filter.mpr ⟨hs, hms⟩
      unfold fetchVotes at hf
      rcases hm : db.pollOptions.filter (optionMatches pollId optionId) with _ | ⟨r, t⟩
      · rw [hm] at hf; simp at hf
      · cases t with
        | nil =>
            rw [hm] at hf
            have hv : r.votes = v := by simpa using hf
            rw [hm] at hsr
            have hsr' : s = r := by simpa using hsr
            subst hsr'
            refine ⟨s, hs, ?_, ?_, Or.inr ?_⟩ <;> simp [hms, hv]
        | cons q u => rw [hm] at hf; simp at hf
    · exact ⟨s, hs, by simp [hms], by simp [hms], Or.inl (by simp [hms])⟩

/-- Helper: a successful `createPoll` appends exactly the new poll row, and
every option row of the result is either a pre-existing row or a fresh one
inserted with `votes = 0`. -/
theorem createPoll_ok_shape (db : DB) (userId : String)
    (title description : Option String)
    (optionsArray : List CreateOptionInput) (newPollId : String)
    (newOptionIds : List String) (db' : DB)
    (h : createPoll db userId title description optionsArray newPollId
          newOptionIds = Except.ok db') :
    db'.polls = db.polls ++
      [{ id := newPollId, title := trimStr (title.getD ""),
         description := normalizeDescription description,
         createdBy := userId }] ∧
    (∀ r' ∈ db'.pollOptions, r' ∈ db.pollOptions ∨ r'.votes = 0) := by
  unfold createPoll at h
  split_ifs at h
  rcases h with ⟨⟩
  refine ⟨rfl, ?_⟩
  intro r' hr'
  rcases List.mem_append.mp hr' with hold | hnew
  · exact Or.inl hold
  · rcases List.mem_map.mp hnew with ⟨pr, hpr, rfl⟩
    exact Or.inr rfl

/-- Helper: one iteration of `updatePoll`'s per-option loop preserves row
provenance — inserted options carry `votes = 0`, text updates keep id and
votes. -/
theorem updatePollStep_preserve (pollId : String) (ex : List OptionRow)
    (fid : Nat → String) (base : List OptionRow) (acc : DB × Nat)
    (o : UpdateOptionInput)
    (hacc : ∀ r ∈ acc.1.pollOptions, optionProvenance base r) :
    ∀ r' ∈ (updatePollStep pollId ex fid acc o).1.pollOptions,
      optionProvenance base r' := by
  obtain ⟨d, k⟩ := acc
  intro r' hr'
  unfold updatePollStep at hr'
  by_cases hnew : strStartsWith o.id "new_"
  · rw [if_pos hnew] at hr'
    rcases List.mem_append.mp hr' with hold | hfresh
    · exact hacc r' hold
    · have : r' = { id := fid k, pollId := pollId, text := o.text, votes := 0 } := by
        simpa using hfresh
      exact Or.inl (by rw [this])
  · rw [if_neg hnew] at hr'
    rcases hfind : ex.find? (fun e => e.id == o.id) with _ | e
    · rw [hfind] at hr'
      exact hacc r' hr'
    · rw [hfind] at hr'
      dsimp only at hr'
      by_cases htext : e.text ≠ o.text
      · rw [if_pos htext] at hr'
        rcases List.mem_map.mp hr' with ⟨s, hs, rfl⟩
        rcases hacc s hs with h0 | ⟨r0, hr0, hid, hv⟩
        · by_cases hsid : s.id == o.id <;> simp [hsid, optionProvenance, h0]
        · right
          by_cases hsid : s.id == o.id <;>
            exact ⟨r0, hr0, by simp [hsid, hid], by simp [hsid, hv]⟩
      · rw [if_neg htext] at hr'
        exact hacc r' hr'

/-- Helper: the whole per-option loop preserves row provenance. -/
theorem updatePollLoop_provenance (db : DB) (u : UpdatePollInput)
    (fid : Nat → String) :
    ∀ r' ∈ (updatePollLoop db u fid).pollOptions,
      optionProvenance db.pollOptions r' := by
  unfold updatePollLoop
  have general : ∀ (opts : List UpdateOptionInput) (acc : DB × Nat),
      (∀ r ∈ acc.1.pollOptions, optionProvenance db.pollOptions r) →
      ∀ r' ∈ ((opts.foldl
          (updatePollStep u.pollId (updatePollExisting db u) fid) acc).1).pollOptions,
        optionProvenance db.pollOptions r' := by
    intro opts
    induction opts with
    | nil => intro acc hacc; simpa using hacc
    | cons o rest ih =>
        intro acc hacc
        rw [List.foldl_cons]
        exact ih _ (updatePollStep_preserve u.pollId (updatePollExisting db u)
          fid db.pollOptions acc o hacc)
  refine general u.options (updatePollMeta db u, 0) ?_
  intro r hrr
  exact Or.inr ⟨r, hrr, rfl, rfl⟩

/-- **C9.**  The `votes` counter is well-behaved under every operation:
(1) in every datastore state reachable from the empty store through
`createPoll`, `submitVote`, `updatePoll`, `deletePoll`, all vote counts are
non-negative; (2) `createPoll` only appends options with `votes = 0`;
(3) `submitVote` only keeps a row's count or raises it by exactly one;
(4) every option surviving `updatePoll` is either a fresh insert at
`votes = 0` or carries the exact vote count of the base row with its id —
text edits leave votes untouched; (5) `deletePoll` only removes rows, so a
count never decreases except by deletion of the option itself. -/
theorem votes_invariant_per_operation :
    (∀ db, Reachable db → ∀ r ∈ db.pollOptions, 0 ≤ r.votes) ∧
    (∀ db userId title description optionsArray newPollId newOptionIds db',
      createPoll db userId title description optionsArray newPollId
          newOptionIds = Except.ok db' →
      ∀ r' ∈ db'.pollOptions, r' ∈ db.pollOptions ∨ r'.votes = 0) ∧
    (∀ db pollId optionId,
      ∀ r' ∈ (submitVote db pollId optionId).1.pollOptions,
        ∃ r ∈ db.pollOptions, r'.id = r.id ∧ r'.pollId = r.pollId ∧
          (r'.votes = r.votes ∨ r'.votes = r.votes + 1)) ∧
    (∀ db u fid, ∀ r' ∈ (updatePoll db u fid).pollOptions,
      r'.votes = 0 ∨
        ∃ r0 ∈ db.pollOptions, r0.id = r'.id ∧ r0.votes = r'.votes) ∧
    (∀ db pollId, ∀ r' ∈ (deletePoll db pollId).pollOptions,
      r' ∈ db.pollOptions) := by
  have hupd : ∀ (db : DB) (u : UpdatePollInput) (fid : Nat → String),
      ∀ r' ∈ (updatePoll db u fid).pollOptions,
        optionProvenance db.pollOptions r' := by
    intro db u fid r' hr'
    have hloop : r' ∈ (updatePollLoop db u fid).pollOptions :=
      (List.mem_filter.mp hr').1
    exact updatePollLoop_provenance db u fid r' hloop
  have hdel : ∀ (db : DB) (pollId : String),
      ∀ r' ∈ (deletePoll db pollId).pollOptions, r' ∈ db.pollOptions := by
    intro db pollId r' hr'
    exact (List.mem_filter.mp hr').1
  refine ⟨?_, ?_, ?_, hupd, hdel⟩
  · intro db hreach
    induction hreach with
    | empty => intro r hr; simp at hr
    | create hre hok ih =>
        intro r hr
        rcases (createPoll_ok_shape _ _ _ _ _ _ _ _ hok).2 r hr with hold | h0
        · exact ih r hold
        · rw [h0]
    | vote hre ih =>
        intro r hr
        rcases submitVote_row_provenance _ _ _ r hr with ⟨r0, hr0, _, _, hv⟩
        have h0 := ih r0 hr0
        rcases hv with h | h <;> omega
    | update hre ih =>
        intro r hr
        rcases hupd _ _ _ r hr with h0 | ⟨r0, hr0, _, hv⟩
        · rw [h0]
        · have := ih r0 hr0; omega
    | delete hre ih =>
        intro r hr
        exact ih r (hdel _ _ r hr)
  · intro db userId title description optionsArray newPollId newOptionIds db' h
    exact (createPoll_ok_shape _ _ _ _ _ _ _ _ h).2
  · exact submitVote_row_provenance

/-- The store produced by `createPoll` on the empty store: poll `p1` with
options `o1`, `o2`, both at `votes = 0`. -/
def seedDB : DB :=
  { polls := [{ id := "p1", title := "Lunch?", description := none, createdBy := "u1" }]
    pollOptions :=
      [{ id := "o1", pollId := "p1", text := "Pizza", votes := 0 },
       { id := "o2", pollId := "p1", text := "Sushi", votes := 0 }] }

/-- **C9 (witness).**  The invariant clause at a concrete reachable state:
the store built by `createPoll` from empty and one `submitVote` for `o1`
contains the row `o1` at `votes = 1`, which is non-negative. -/
theorem votes_invariant_per_operation_witness :
    0 ≤ ({ id := "o1", pollId := "p1", text := "Pizza", votes := 1 } : OptionRow).votes :=
  votes_invariant_per_operation.1 (submitVote seedDB "p1" "o1").1
    (Reachable.vote
      (@Reachable.create ⟨[], []⟩ "u1" (some "Lunch?") none
        [{ text := "Pizza" }, { text := "Sushi" }] "p1" ["o1", "o2"] seedDB
        Reachable.empty (by decide)))
    { id := "o1", pollId := "p1", text := "Pizza", votes := 1 }
    (by decide)

/-! ## C10 — blank descriptions: stored as `NULL`, read back as `""` -/

/-- The store created from empty by `createPoll` with a whitespace-only
description: the description column holds `NULL`. -/
def blankDescDB : DB :=
  { polls := [{ id := "p1", title := "T", description := none, createdBy := "u1" }]
    pollOptions :=
      [{ id := "o1", pollId := "p1", text := "A", votes := 0 },
       { id := "o2", pollId := "p1", text := "B", votes := 0 }] }

/-- **C10.**  A poll created with a blank (missing, empty, or
whitespace-only) description is stored with `description = NULL`
(`description?.trim() || null`), and `getPollDetails` renders any poll's
description as `p.description || ''` — so the stored `NULL` comes back as
the empty string, and a caller of the read interface cannot tell an absent
description from an empty one: the create-then-read round trip does not
preserve absence.  Clauses: (1) blank inputs normalize to `NULL`; (2) a
successful `createPoll` with a blank description inserts the poll row with
`description = NULL`; (3) whatever poll row `getPollDetails` finds, the
returned description is `p.description.getD ""`, collapsing `NULL` to `""`;
(4) the concrete round trip from the empty store with description `"   "`
stores `NULL` and reads back `""`. -/
theorem blank_description_round_trip :
    (∀ description, strBlank description = true →
      normalizeDescription description = none) ∧
    (∀ db userId title description optionsArray newPollId newOptionIds db',
      createPoll db userId title description optionsArray newPollId
          newOptionIds = Except.ok db' →
      strBlank description = true →
      ∃ p ∈ db'.polls, p.id = newPollId ∧ p.description = none) ∧
    (∀ db pid d, getPollDetails db false pid = some d →
      ∃ p ∈ db.polls, p.id = pid ∧ d.description = p.description.getD "") ∧
    (createPoll ⟨[], []⟩ "u1" (some "T") (some "   ")
        [{ text := "A" }, { text := "B" }] "p1" ["o1", "o2"] =
      Except.ok blankDescDB ∧
    (getPollDetails blankDescDB false "p1").map PollDetail.description =
      some "") := by
  have hnorm : ∀ description, strBlank description = true →
      normalizeDescription description = none := by
    intro description h
    cases description with
    | none => rfl
    | some s =>
        have ht : trimStr s = "" := by simpa [strBlank] using h
        simp [normalizeDescription, ht]
  refine ⟨hnorm, ?_, ?_, by decide⟩
  · intro db userId title description optionsArray newPollId newOptionIds db'
      h hblank
    have hshape := (createPoll_ok_shape _ _ _ _ _ _ _ _ h).1
    refine ⟨{ id := newPollId, title := trimStr (title.getD ""),
              description := normalizeDescription description,
              createdBy := userId }, ?_, rfl, hnorm description hblank⟩
    rw [hshape]
    exact List.mem_append.mpr (Or.inr (by simp))
  · intro db pid d h
    unfold getPollDetails at h
    simp only [Bool.false_eq_true, if_false] at h
    rcases hm : db.polls.filter (fun p => p.id == pid) with _ | ⟨p, t⟩ <;>
      rw [hm] at h
    · simp at h
    · cases t with
      | nil =>
          have hd := (Option.some.injEq _ _).mp h
          have hpmem := List.mem_filter.mp (hm ▸ List.mem_singleton_self p)
          exact ⟨p, hpmem.1, by simpa using hpmem.2, by rw [← hd]⟩
      | cons q u => simp at h

/-- **C10 (witness).**  Clause (1) at a concrete input: a whitespace-only
description normalizes to the stored `NULL`. -/
theorem blank_description_round_trip_witness :
    normalizeDescription (some "   ") = none :=
  blank_description_round_trip.1 (some "   ") (by decide)
